import Mathlib

/-!
Shallow embedding of `src/weather_analyzer.py` (class `WeatherAnalyzer`).

Modelling conventions:
* Python/pandas floating-point numbers are modelled as exact rationals (`ℚ`).
* A CSV cell as produced by `pd.read_csv` is modelled by `Cell`: a missing
  value (`nan`), a numeric value, a string that `float()` can parse, or a
  string that `float()` cannot parse.
* A data-frame row is a function from column names to cells; a data frame
  carries its column list and its rows.
* Python strings that undergo character-level processing (file names) are
  modelled as `List Char`; `str.split`, `str.replace` and `int()` are
  reimplemented with the same semantics so that they evaluate by kernel
  reduction.
* File discovery (`glob.glob`) is abstracted: `load_all_data` receives the
  list of discovered CSV files as an argument.
* `pandas.groupby` sorts group keys and drops NaN keys; key order is
  abstracted away (all theorems below are membership statements), the
  NaN-key drop is modelled explicitly.
* `Series.std()` (ddof = 1) is `√variance`; the executable embedding works
  with the sample variance `sampleVar`, and the theorem about stability
  compares standard deviations `Real.sqrt (sampleVar …)`, which order
  exactly as the variances do.
-/

/-- A CSV cell after `pd.read_csv`: missing, numeric, a numeric string
(`float()` succeeds), or a non-numeric string (`float()` raises). -/
inductive Cell where
  | nan : Cell
  | num : ℚ → Cell
  | numStr : ℚ → Cell
  | text : String → Cell
deriving DecidableEq

/-- `pd.isna`/`float()` gate of lines 91–98: `None` when the cell is skipped
(missing or unparseable), `some q` when `float(temp_value)` returns `q`. -/
def parseTemp : Cell → Option ℚ
  | Cell.nan => none
  | Cell.num q => some q
  | Cell.numStr q => some q
  | Cell.text _ => none

/-- A parsed data frame: the column names and the rows (a row maps a column
name to the cell stored there). -/
structure DataFrame where
  columns : List String
  rows : List (String → Cell)

/-- A discovered CSV file: its base name (a Python string, as characters)
and its parsed contents. -/
structure CSVFile where
  name : List Char
  df : DataFrame

/-- One long-form record as built in lines 101–107. -/
structure Record where
  Station : Cell
  Year : Int
  Month : String
  Temperature : ℚ
  Season : String
deriving DecidableEq

/-- `self.season_mapping` of lines 17–22, as the same key-value list. -/
def season_mapping : List (String × String) :=
  [("December", "Summer"), ("January", "Summer"), ("February", "Summer"),
   ("March", "Autumn"), ("April", "Autumn"), ("May", "Autumn"),
   ("June", "Winter"), ("July", "Winter"), ("August", "Winter"),
   ("September", "Spring"), ("October", "Spring"), ("November", "Spring")]

/-- `month_columns` of lines 68–69. -/
def monthColumns : List String :=
  ["January", "February", "March", "April", "May", "June",
   "July", "August", "September", "October", "November", "December"]

/-- Python `s.split(sep)` on a character list: every occurrence of `sep`
separates tokens, adjacent separators give empty tokens, and the empty
string splits to `[""]`. -/
def pySplit (sep : Char) : List Char → List (List Char)
  | [] => [[]]
  | c :: cs =>
    match pySplit sep cs with
    | [] => [[c]]
    | t :: ts => if c = sep then [] :: t :: ts else (c :: t) :: ts

/-- Python `s.replace(".csv", "")`: delete every (left-to-right,
non-overlapping) occurrence of the four characters `.csv`. -/
def pyReplaceCsv : List Char → List Char
  | '.' :: 'c' :: 's' :: 'v' :: rest => pyReplaceCsv rest
  | c :: cs => c :: pyReplaceCsv cs
  | [] => []

/-- Digit value of an ASCII digit character. -/
def digitVal (c : Char) : Option Nat :=
  if '0' ≤ c ∧ c ≤ '9' then some (c.toNat - '0'.toNat) else none

/-- Accumulate decimal digits; fails on a non-digit. -/
def digitsToNat (acc : Nat) : List Char → Option Nat
  | [] => some acc
  | c :: cs =>
    match digitVal c with
    | some d => digitsToNat (acc * 10 + d) cs
    | none => none

/-- A non-empty all-digit run, as a natural number. -/
def parseDigits : List Char → Option Nat
  | [] => none
  | l => digitsToNat 0 l

/-- Python `int(s)`: optional surrounding whitespace, an optional sign, then
at least one decimal digit. -/
def pyToInt (l : List Char) : Option Int :=
  let l := (((l.dropWhile Char.isWhitespace).reverse.dropWhile
      Char.isWhitespace).reverse)
  match l with
  | '+' :: rest => (parseDigits rest).map Int.ofNat
  | '-' :: rest => (parseDigits rest).map (fun n => -(n : Int))
  | rest => (parseDigits rest).map Int.ofNat

/-- Lines 43–47: `int(filename.split('_')[-1].replace('.csv', ''))`,
`none` when the conversion raises. -/
def extractYear (filename : List Char) : Option Int :=
  pyToInt (pyReplaceCsv ((pySplit '_' filename).getLastD []))

/-- Lines 56–65: the station-name column actually used, in the source's
precedence order, or `none` when the file is skipped. -/
def stationCol (cols : List String) : Option String :=
  if "STATION_NAME" ∈ cols then some "STATION_NAME"
  else if "Station" ∈ cols then some "Station"
  else if "station" ∈ cols then some "station"
  else none

/-- Lines 87–107: the records produced from one row, scanning the available
months in order and skipping missing/unparseable cells. -/
def rowRecords (year : Int) (scol : String) (months : List String)
    (row : String → Cell) : List Record :=
  months.filterMap fun month =>
    (parseTemp (row month)).map fun q =>
      { Station := row scol, Year := year, Month := month, Temperature := q,
        Season := (season_mapping.lookup month).getD "" }

/-- Lines 39–114: all records contributed by one discovered CSV file;
`[]` when the file is skipped (bad year, no station column, no month
columns) or contains no valid temperature value. -/
def processFile (f : CSVFile) : List Record :=
  match extractYear f.name with
  | none => []
  | some year =>
    match stationCol f.df.columns with
    | none => []
    | some scol =>
      let months := monthColumns.filter (fun c => c ∈ f.df.columns)
      if months.isEmpty then []
      else ((f.df.rows.map (rowRecords year scol months)).flatten)

/-- The two exceptions `load_all_data` can raise (lines 33 and 121). -/
inductive LoadError where
  | fileNotFound : LoadError
  | valueError : LoadError
deriving DecidableEq

/-- Lines 24–134, pure core: from the discovered files to either the
combined record list (`pd.concat` of the per-file reshaped frames) or the
raised exception. -/
def load_all_data (files : List CSVFile) : Except LoadError (List Record) :=
  if files.isEmpty then Except.error LoadError.fileNotFound
  else
    let combined := (files.map processFile).flatten
    if combined.isEmpty then Except.error LoadError.valueError
    else Except.ok combined

/-- The analyzer's mutable state: `self.data_folder` and `self.all_data`
(`self.season_mapping` is the constant `season_mapping`). -/
structure WeatherAnalyzer where
  data_folder : String
  all_data : List Record
deriving DecidableEq

/-- `__init__` (lines 8–22): `all_data` starts as an empty frame. -/
def WeatherAnalyzer.init (folder : String) : WeatherAnalyzer :=
  { data_folder := folder, all_data := [] }

/-- Stateful `load_all_data`: `self.all_data` is assigned only on line 124,
after both possible raises, so on an exception the state is returned as it
was. -/
def load_all_dataS (a : WeatherAnalyzer) (files : List CSVFile) :
    WeatherAnalyzer × Option LoadError :=
  match load_all_data files with
  | Except.error e => (a, some e)
  | Except.ok recs => ({ a with all_data := recs }, none)

/-- Mean of a list of rationals: `none` on the empty list (pandas `NaN`). -/
def meanQ (xs : List ℚ) : Option ℚ :=
  if xs.isEmpty then none else some (xs.sum / xs.length)

/-- Temperatures of the records of season `s`. -/
def seasonTemps (recs : List Record) (s : String) : List ℚ :=
  (recs.filter (fun r => r.Season = s)).map Record.Temperature

/-- `season_order` of line 144. -/
def season_order : List String := ["Summer", "Autumn", "Winter", "Spring"]

/-- Lines 136–155: group by `Season`, take the mean temperature, and
reindex to the four seasons in order (absent seasons become `NaN`, i.e.
`none`). -/
def calculate_seasonal_averages (recs : List Record) :
    List (String × Option ℚ) :=
  season_order.map fun s => (s, meanQ (seasonTemps recs s))

/-- The station keys of `groupby('Station')`: the distinct station values,
with a missing (NaN) key dropped, as pandas does.  Key order is abstracted;
every statement below is about membership. -/
def stationKeys (recs : List Record) : List Cell :=
  ((recs.map Record.Station).dedup).filter (fun c => c ≠ Cell.nan)

/-- Temperatures of the records of station `st`. -/
def stationTemps (recs : List Record) (st : Cell) : List ℚ :=
  (recs.filter (fun r => r.Station = st)).map Record.Temperature

/-- Maximum of a list (`0` on `[]`, which is never used). -/
def listMax : List ℚ → ℚ
  | [] => 0
  | x :: xs => xs.foldl max x

/-- Minimum of a list (`0` on `[]`, which is never used). -/
def listMin : List ℚ → ℚ
  | [] => 0
  | x :: xs => xs.foldl min x

/-- `max − min` of a station's temperatures (line 163). -/
def stationRange (recs : List Record) (st : Cell) : ℚ :=
  listMax (stationTemps recs st) - listMin (stationTemps recs st)

/-- Lines 157–181: the stations whose range equals the maximal range
(`station_stats[station_stats['Range'] == max_range]`); `sort_values` only
permutes rows and is not modelled. -/
def find_largest_temperature_range (recs : List Record) : List Cell :=
  let keys := stationKeys recs
  let maxRange := listMax (keys.map (stationRange recs))
  keys.filter (fun st => stationRange recs st = maxRange)

/-- Sample variance (`ddof = 1`), meaningful for lists of length ≥ 2; the
pandas `std` is its square root. -/
def sampleVar (xs : List ℚ) : ℚ :=
  let n : ℚ := xs.length
  let m : ℚ := xs.sum / n
  ((xs.map (fun x => (x - m) ^ 2)).sum) / (n - 1)

/-- The stations surviving `dropna()` on the per-station `std` (lines
188–192): exactly those with at least two records, since `std` (ddof = 1)
is NaN precisely on one-element groups. -/
def stableKeys (recs : List Record) : List Cell :=
  (stationKeys recs).filter (fun st => 2 ≤ (stationTemps recs st).length)

/-- Lines 183–219: `(most_stable, most_variable)` as the stations attaining
the minimal / maximal dispersion among `stableKeys`, or `none` for the
`return None, None` of line 196.  Comparisons are made on the sample
variance; `std = √variance` induces the same order. -/
def analyze_temperature_stability (recs : List Record) :
    Option (List Cell × List Cell) :=
  let keys := stableKeys recs
  if keys.isEmpty then none
  else
    let minV := listMin (keys.map (fun st => sampleVar (stationTemps recs st)))
    let maxV := listMax (keys.map (fun st => sampleVar (stationTemps recs st)))
    some (keys.filter (fun st => sampleVar (stationTemps recs st) = minV),
          keys.filter (fun st => sampleVar (stationTemps recs st) = maxV))

/-- Data written by `generate_summary_report` (lines 221–262); the report
only reads `all_data`. -/
structure SummaryReport where
  totalRecords : Nat
  monthlyMeans : List (String × Option ℚ)
deriving DecidableEq

/-- Lines 244–251: monthly means, reindexed to calendar order. -/
def generate_summary_report (recs : List Record) : SummaryReport :=
  { totalRecords := recs.length,
    monthlyMeans := monthColumns.map fun m =>
      (m, meanQ ((recs.filter (fun r => r.Month = m)).map Record.Temperature)) }

/-- Stateful wrappers: each analysis method reads `self.all_data` and
assigns no attribute, so the state component is returned unchanged. -/
def calculate_seasonal_averagesS (a : WeatherAnalyzer) :
    WeatherAnalyzer × List (String × Option ℚ) :=
  (a, calculate_seasonal_averages a.all_data)

/-- Stateful `find_largest_temperature_range`. -/
def find_largest_temperature_rangeS (a : WeatherAnalyzer) :
    WeatherAnalyzer × List Cell :=
  (a, find_largest_temperature_range a.all_data)

/-- Stateful `analyze_temperature_stability`. -/
def analyze_temperature_stabilityS (a : WeatherAnalyzer) :
    WeatherAnalyzer × Option (List Cell × List Cell) :=
  (a, analyze_temperature_stability a.all_data)

/-- Stateful `generate_summary_report`. -/
def generate_summary_reportS (a : WeatherAnalyzer) :
    WeatherAnalyzer × SummaryReport :=
  (a, generate_summary_report a.all_data)

/-- The pipeline stages of `run_complete_analysis`, in trace order. -/
inductive PipelineStep where
  | load : PipelineStep
  | seasonal : PipelineStep
  | range : PipelineStep
  | stability : PipelineStep
  | report : PipelineStep
deriving DecidableEq

/-- The results collected in lines 275–280. -/
structure AnalysisResults where
  seasonal_averages : List (String × Option ℚ)
  temp_ranges : List Cell
  stability : Option (List Cell × List Cell)
  summary : SummaryReport
deriving DecidableEq

/-- Lines 264–316: the `try` block runs `load_all_data` then the four
analyses in source order; `except Exception` catches a raised load error
and returns normally with no results.  The third component is the trace of
the stages that actually ran, in execution order. -/
def run_complete_analysisS (a : WeatherAnalyzer) (files : List CSVFile) :
    WeatherAnalyzer × Option AnalysisResults × List PipelineStep :=
  match load_all_dataS a files with
  | (a1, some _) => (a1, none, [PipelineStep.load])
  | (a1, none) =>
    let (a2, seasonal_averages) := calculate_seasonal_averagesS a1
    let (a3, temp_ranges) := find_largest_temperature_rangeS a2
    let (a4, stab) := analyze_temperature_stabilityS a3
    let (a5, summary) := generate_summary_reportS a4
    (a5, some { seasonal_averages := seasonal_averages,
                temp_ranges := temp_ranges, stability := stab,
                summary := summary },
     [PipelineStep.load, PipelineStep.seasonal, PipelineStep.range,
      PipelineStep.stability, PipelineStep.report])

/-- The Southern-hemisphere month→season mapping in the words of the spec:
December, January, February are Summer; March, April, May Autumn; June,
July, August Winter; September, October, November Spring. -/
def southernSeason (m : String) : String :=
  if m = "December" ∨ m = "January" ∨ m = "February" then "Summer"
  else if m = "March" ∨ m = "April" ∨ m = "May" then "Autumn"
  else if m = "June" ∨ m = "July" ∨ m = "August" then "Winter"
  else if m = "September" ∨ m = "October" ∨ m = "November" then "Spring"
  else ""

/-- The claim's reading of the year token: the `.csv` SUFFIX removed (the
source instead removes every occurrence of `.csv`). -/
def stripCsvSuffix (l : List Char) : List Char :=
  if ['.', 'c', 's', 'v'].isSuffixOf l then l.take (l.length - 4) else l

/-! ### Concrete sample data, used by the witness theorems -/

/-- A sample row: station `Alpha`, January 25 °C, June 12 °C, the other
cells missing. -/
def exRow1 : String → Cell := fun c =>
  if c = "STATION_NAME" then Cell.text "Alpha"
  else if c = "January" then Cell.num 25
  else if c = "June" then Cell.num 12
  else Cell.nan

/-- A sample file `stations_1990.csv` holding `exRow1`. -/
def exFile1 : CSVFile :=
  { name := "stations_1990.csv".data,
    df := { columns := ["STATION_NAME", "January", "June"], rows := [exRow1] } }

/-- A sample row with an unparseable February cell. -/
def exRowBad : String → Cell := fun c =>
  if c = "STATION_NAME" then Cell.text "Beta"
  else if c = "January" then Cell.num 7
  else if c = "February" then Cell.text "oops"
  else Cell.nan

/-- The records that `load_all_data [exFile1]` produces. -/
def exRecs1 : List Record :=
  [{ Station := Cell.text "Alpha", Year := 1990, Month := "January",
     Temperature := 25, Season := "Summer" },
   { Station := Cell.text "Alpha", Year := 1990, Month := "June",
     Temperature := 12, Season := "Winter" }]

/-- The first record of `exRecs1`: January 1990 at station Alpha. -/
def exRecJan : Record :=
  { Station := Cell.text "Alpha", Year := 1990, Month := "January",
    Temperature := 25, Season := "Summer" }

/-- A discoverable file (its name ends in `.csv`) whose year token contains
an interior `.csv`: the source's `replace('.csv', '')` turns `19.csv90.csv`
into `1990`, although the token with only the suffix removed, `19.csv90`,
parses as no integer. -/
def exFileC : CSVFile :=
  { name := "stations_19.csv90.csv".data,
    df := { columns := ["STATION_NAME", "January"], rows := [exRow1] } }

/-- Sample records for the range/stability analyses: station `A` has
temperatures 0 and 10, station `B` has temperature 5. -/
def exRecs3 : List Record :=
  [{ Station := Cell.text "A", Year := 2000, Month := "January",
     Temperature := 0, Season := "Summer" },
   { Station := Cell.text "A", Year := 2000, Month := "February",
     Temperature := 10, Season := "Summer" },
   { Station := Cell.text "B", Year := 2000, Month := "January",
     Temperature := 5, Season := "Summer" }]

/-- Sample records for the stability analysis: station `A` has temperatures
10 and 10 (variance 0), station `B` has 0 and 10 (variance 50). -/
def exRecs4 : List Record :=
  [{ Station := Cell.text "A", Year := 2000, Month := "January",
     Temperature := 10, Season := "Summer" },
   { Station := Cell.text "A", Year := 2000, Month := "February",
     Temperature := 10, Season := "Summer" },
   { Station := Cell.text "B", Year := 2000, Month := "January",
     Temperature := 0, Season := "Summer" },
   { Station := Cell.text "B", Year := 2000, Month := "February",
     Temperature := 10, Season := "Summer" }]

/-! ### Helper lemmas -/

/-- On the twelve month columns, the source's `season_mapping` dictionary
agrees with the Southern-hemisphere mapping of the spec. -/
theorem seasonLookup_eq :
    ∀ m ∈ monthColumns, (season_mapping.lookup m).getD "" = southernSeason m := by
  decide

/-- `load_all_data` succeeds exactly with the concatenation of the per-file
record lists. -/
theorem load_ok_eq (files : List CSVFile) (recs : List Record)
    (h : load_all_data files = Except.ok recs) :
    recs = (files.map processFile).flatten := by
  simp only [load_all_data] at h
  split at h
  · exact Except.noConfusion h
  · split at h
    · exact Except.noConfusion h
    · injection h with h
      exact h.symm

/-- Unfolding of `rowRecords` membership: a produced record comes from a
month of the scanned list whose cell parses, and has exactly the built
fields. -/
theorem mem_rowRecords {y : Int} {sc : String} {months : List String}
    {row : String → Cell} {r : Record} (h : r ∈ rowRecords y sc months row) :
    ∃ m ∈ months, ∃ q : ℚ, parseTemp (row m) = some q ∧
      r = { Station := row sc, Year := y, Month := m, Temperature := q,
            Season := (season_mapping.lookup m).getD "" } := by
  unfold rowRecords at h
  rw [List.mem_filterMap] at h
  obtain ⟨m, hm, hsome⟩ := h
  obtain ⟨q, hq, hr⟩ := Option.map_eq_some'.mp hsome
  exact ⟨m, hm, q, hq, hr.symm⟩

/-- Membership in a processed file: the file has a parseable year and a
station column, and the record arises from some row. -/
theorem mem_processFile {f : CSVFile} {r : Record} (h : r ∈ processFile f) :
    ∃ y, extractYear f.name = some y ∧ ∃ sc, stationCol f.df.columns = some sc ∧
      ∃ row ∈ f.df.rows,
        r ∈ rowRecords y sc (monthColumns.filter (fun c => c ∈ f.df.columns)) row := by
  unfold processFile at h
  cases hy : extractYear f.name with
  | none => rw [hy] at h; exact absurd h (List.not_mem_nil r)
  | some y =>
    rw [hy] at h
    cases hsc : stationCol f.df.columns with
    | none => rw [hsc] at h; exact absurd h (List.not_mem_nil r)
    | some sc =>
      rw [hsc] at h
      simp only at h
      split at h
      · exact absurd h (List.not_mem_nil r)
      · rw [List.mem_flatten] at h
        obtain ⟨l, hl, hr⟩ := h
        rw [List.mem_map] at hl
        obtain ⟨row, hrow, rfl⟩ := hl
        exact ⟨y, rfl, sc, rfl, row, hrow, hr⟩

/-! ### Claims -/

/-- C1: for a loaded CSV file (year parsed from the file name, a station
column present), `processFile` produces, row by row and month by month,
exactly one record per parseable cell — with the row's station name, the
file's year, the month-column name, the parsed value, and the
Southern-hemisphere season — and nothing else. -/
theorem c1_wide_to_long (f : CSVFile) (y : Int) (sc : String)
    (hy : extractYear f.name = some y)
    (hsc : stationCol f.df.columns = some sc) :
    processFile f = f.df.rows.flatMap (fun row =>
      (monthColumns.filter (fun c => c ∈ f.df.columns)).filterMap (fun m =>
        (parseTemp (row m)).map (fun q =>
          { Station := row sc, Year := y, Month := m, Temperature := q,
            Season := southernSeason m }))) := by
  unfold processFile
  rw [hy, hsc]
  rw [List.flatMap_def]
  by_cases hemp : (monthColumns.filter (fun c => c ∈ f.df.columns)).isEmpty
  · rw [List.isEmpty_iff] at hemp
    simp [hemp]
  · simp only [List.isEmpty_iff] at hemp
    simp only [hemp, if_false, List.isEmpty_iff]
    congr 1
    apply List.map_congr_left
    intro row _
    unfold rowRecords
    apply List.filterMap_congr
    intro m hm
    rw [List.mem_filter] at hm
    rw [seasonLookup_eq m hm.1]

/-- C1 witness: the theorem applied to a concrete two-month file. -/
theorem c1_wide_to_long_witness :
    processFile exFile1 = exFile1.df.rows.flatMap (fun row =>
      (monthColumns.filter (fun c => c ∈ exFile1.df.columns)).filterMap (fun m =>
        (parseTemp (row m)).map (fun q =>
          { Station := row "STATION_NAME", Year := 1990, Month := m,
            Temperature := q, Season := southernSeason m }))) :=
  c1_wide_to_long exFile1 1990 "STATION_NAME" (by decide) (by decide)

/-- Elements mapped to `none` can be dropped from the scanned list without
changing a `filterMap`. -/
theorem filterMap_filter_ne {α β : Type} [DecidableEq α] (f : α → Option β)
    (l : List α) (x : α) (hx : f x = none) :
    l.filterMap f = (l.filter (fun a => a ≠ x)).filterMap f := by
  induction l with
  | nil => rfl
  | cons a as ih =>
    by_cases ha : a = x
    · subst ha
      simp [List.filter_cons, List.filterMap_cons, hx, ih]
    · cases hfa : f a with
      | none => simp [List.filter_cons, List.filterMap_cons, ha, hfa, ih]
      | some b => simp [List.filter_cons, List.filterMap_cons, ha, hfa, ih]

/-- C5: a missing or unparseable temperature cell is only skipped: the row
yields no record for that month, the remaining months are processed as if
the month were absent, and `load_all_data` always returns a value or one of
its two declared exceptions — a malformed cell never aborts the load. -/
theorem c5_malformed_skip (y : Int) (sc m : String) (months : List String)
    (row : String → Cell) (hmal : parseTemp (row m) = none) :
    (∀ r ∈ rowRecords y sc months row, r.Month ≠ m)
    ∧ rowRecords y sc months row =
        rowRecords y sc (months.filter (fun m' => m' ≠ m)) row
    ∧ ∀ files : List CSVFile,
        (∃ recs, load_all_data files = Except.ok recs)
        ∨ (∃ e, load_all_data files = Except.error e) := by
  refine ⟨?_, ?_, ?_⟩
  · intro r hr
    obtain ⟨m', hm', q, hq, hrec⟩ := mem_rowRecords hr
    subst hrec
    intro hM
    simp only at hM
    rw [hM, hmal] at hq
    exact Option.noConfusion hq
  · exact filterMap_filter_ne _ months m (by rw [hmal]; rfl)
  · intro files
    cases hres : load_all_data files with
    | ok recs => exact Or.inl ⟨recs, rfl⟩
    | error e => exact Or.inr ⟨e, rfl⟩

/-- C5 witness: skipping the malformed February cell of a concrete row
equals removing February from the scanned months. -/
theorem c5_malformed_skip_witness :
    rowRecords 1990 "STATION_NAME" ["January", "February"] exRowBad =
      rowRecords 1990 "STATION_NAME"
        (["January", "February"].filter (fun m' => m' ≠ "February"))
        exRowBad :=
  (c5_malformed_skip 1990 "STATION_NAME" "February" ["January", "February"]
    exRowBad (by decide)).2.1

/-- C6: when loading succeeds, `run_complete_analysis` executes the stages
load → seasonal averages → temperature range → stability → summary report,
each exactly once, in that order. -/
theorem c6_linear_pipeline (a : WeatherAnalyzer) (files : List CSVFile)
    (recs : List Record) (h : load_all_data files = Except.ok recs) :
    (run_complete_analysisS a files).2.2 =
      [PipelineStep.load, PipelineStep.seasonal, PipelineStep.range,
       PipelineStep.stability, PipelineStep.report]
    ∧ ∀ step : PipelineStep,
        ((run_complete_analysisS a files).2.2).count step = 1 := by
  have htrace : (run_complete_analysisS a files).2.2 =
      [PipelineStep.load, PipelineStep.seasonal, PipelineStep.range,
       PipelineStep.stability, PipelineStep.report] := by
    simp [run_complete_analysisS, load_all_dataS, h,
      calculate_seasonal_averagesS, find_largest_temperature_rangeS,
      analyze_temperature_stabilityS, generate_summary_reportS]
  refine ⟨htrace, ?_⟩
  intro step
  rw [htrace]
  cases step <;> rfl

/-- C6 witness: the theorem applied to a concrete loadable file list. -/
theorem c6_linear_pipeline_witness :
    (run_complete_analysisS (WeatherAnalyzer.init "temperatures")
        [exFile1]).2.2 =
      [PipelineStep.load, PipelineStep.seasonal, PipelineStep.range,
       PipelineStep.stability, PipelineStep.report] :=
  (c6_linear_pipeline (WeatherAnalyzer.init "temperatures") [exFile1]
    exRecs1 (by rfl)).1

/-- C7: none of the four analysis/report methods modifies the analyzer
state — each returns the state exactly as received; their entire effect is
their return value (and the report data, modelled in those values). -/
theorem c7_no_state_mutation (a : WeatherAnalyzer) :
    (calculate_seasonal_averagesS a).1 = a
    ∧ (find_largest_temperature_rangeS a).1 = a
    ∧ (analyze_temperature_stabilityS a).1 = a
    ∧ (generate_summary_reportS a).1 = a :=
  ⟨rfl, rfl, rfl, rfl⟩

/-- Every record of the combined concatenation satisfies the season
invariant: its month is a month column and its season is the
Southern-hemisphere season of that month. -/
theorem flatten_season_invariant (files : List CSVFile) :
    ∀ r ∈ (files.map processFile).flatten,
      r.Month ∈ monthColumns ∧ r.Season = southernSeason r.Month := by
  intro r hr
  rw [List.mem_flatten] at hr
  obtain ⟨l, hl, hr⟩ := hr
  rw [List.mem_map] at hl
  obtain ⟨f, hf, rfl⟩ := hl
  obtain ⟨y, hy, sc, hsc, row, hrow, hrr⟩ := mem_processFile hr
  obtain ⟨m, hm, q, hq, rfl⟩ := mem_rowRecords hrr
  rw [List.mem_filter] at hm
  exact ⟨hm.1, seasonLookup_eq m hm.1⟩

/-- C8: every record produced by a successful `load_all_data` carries
`Season = southernSeason Month` (December/January/February → Summer,
March/April/May → Autumn, June/July/August → Winter,
September/October/November → Spring), and the invariant still holds for
the analyzer's table after the whole pipeline has run, since no later
stage modifies it. -/
theorem c8_season_invariant (a : WeatherAnalyzer) (files : List CSVFile)
    (recs : List Record) (h : load_all_data files = Except.ok recs) :
    (∀ r ∈ recs, r.Month ∈ monthColumns ∧ r.Season = southernSeason r.Month)
    ∧ ∀ r ∈ (run_complete_analysisS a files).1.all_data,
        r.Month ∈ monthColumns ∧ r.Season = southernSeason r.Month := by
  have hflat := flatten_season_invariant files
  constructor
  · intro r hr
    exact hflat r (load_ok_eq files recs h ▸ hr)
  · have hstate : (run_complete_analysisS a files).1.all_data = recs := by
      simp [run_complete_analysisS, load_all_dataS, h,
        calculate_seasonal_averagesS, find_largest_temperature_rangeS,
        analyze_temperature_stabilityS, generate_summary_reportS]
    intro r hr
    rw [hstate] at hr
    exact hflat r (load_ok_eq files recs h ▸ hr)

/-- C8 witness: the invariant instantiated on a concrete loaded record. -/
theorem c8_season_invariant_witness :
    exRecJan.Month ∈ monthColumns
    ∧ exRecJan.Season = southernSeason exRecJan.Month :=
  (c8_season_invariant (WeatherAnalyzer.init "temperatures") [exFile1]
    exRecs1 (by rfl)).1 exRecJan (by decide)

/-- C9: `load_all_data` raises `FileNotFoundError` exactly when no CSV file
was discovered and `ValueError` exactly when files exist but none yields a
valid record; on either raise the state (hence `all_data`, initially
empty) is unchanged, and `run_complete_analysis` catches the exception and
returns normally with no results. -/
theorem c9_error_behaviour (a : WeatherAnalyzer) (files : List CSVFile)
    (folder : String) :
    (load_all_data files = Except.error LoadError.fileNotFound ↔ files = [])
    ∧ (load_all_data files = Except.error LoadError.valueError ↔
        files ≠ [] ∧ (files.map processFile).flatten = [])
    ∧ (∀ e, load_all_data files = Except.error e →
        load_all_dataS a files = (a, some e))
    ∧ (∀ e, load_all_data files = Except.error e →
        run_complete_analysisS a files = (a, none, [PipelineStep.load]))
    ∧ (WeatherAnalyzer.init folder).all_data = [] := by
  refine ⟨?_, ?_, ?_, ?_, rfl⟩
  · by_cases hf : files.isEmpty
    · have hfe : files = [] := List.isEmpty_iff.mp hf
      subst hfe
      simp [load_all_data]
    · have hfe : files ≠ [] := by simpa [List.isEmpty_iff] using hf
      by_cases hc : ((files.map processFile).flatten).isEmpty
      · simp only [load_all_data, hf, if_false, hc, if_true,
          Bool.false_eq_true, reduceIte]
        constructor
        · intro hh
          injection hh with hh
          exact absurd hh (by decide)
        · intro hh
          exact absurd hh hfe
      · simp only [load_all_data, hf, hc, Bool.false_eq_true, reduceIte]
        constructor
        · intro hh
          exact Except.noConfusion hh
        · intro hh
          exact absurd hh hfe
  · by_cases hf : files.isEmpty
    · have hfe : files = [] := List.isEmpty_iff.mp hf
      subst hfe
      simp [load_all_data]
    · have hfe : files ≠ [] := by simpa [List.isEmpty_iff] using hf
      by_cases hc : ((files.map processFile).flatten).isEmpty
      · have hce := List.isEmpty_iff.mp hc
        simp only [load_all_data, hf, hc, Bool.false_eq_true, reduceIte]
        simp [hfe, hce]
      · have hce : (files.map processFile).flatten ≠ [] := by
          simpa [List.isEmpty_iff] using hc
        simp only [load_all_data, hf, hc, Bool.false_eq_true, reduceIte]
        constructor
        · intro hh
          exact Except.noConfusion hh
        · intro hh
          exact absurd hh.2 hce
  · intro e he
    simp [load_all_dataS, he]
  · intro e he
    simp [run_complete_analysisS, load_all_dataS, he]

/-- C9 witness: with no discovered files the load raises
`FileNotFoundError` and the pipeline returns normally with the state
untouched. -/
theorem c9_error_behaviour_witness :
    load_all_data ([] : List CSVFile) = Except.error LoadError.fileNotFound
    ∧ run_complete_analysisS (WeatherAnalyzer.init "temperatures") [] =
        (WeatherAnalyzer.init "temperatures", none, [PipelineStep.load]) := by
  have h := c9_error_behaviour (WeatherAnalyzer.init "temperatures") []
    "temperatures"
  exact ⟨h.1.mpr rfl, h.2.2.2.1 _ (h.1.mpr rfl)⟩

/-- C10 (amended): a discovered CSV file contributes no records when the
last underscore-separated token of its name, with every occurrence of
`.csv` removed (Python `str.replace`), is not parseable as an integer, or
when none of the station-name columns is present, or when none of the
twelve month columns is present; otherwise every contributed record
carries the parsed year. -/
theorem c10_file_gating (f : CSVFile) :
    ((extractYear f.name = none ∨ stationCol f.df.columns = none ∨
        monthColumns.filter (fun c => c ∈ f.df.columns) = []) →
      processFile f = [])
    ∧ ∀ y, extractYear f.name = some y → ∀ r ∈ processFile f, r.Year = y := by
  constructor
  · intro hcond
    unfold processFile
    rcases hcond with h | h | h
    · rw [h]
    · rw [h]
      cases extractYear f.name <;> rfl
    · cases extractYear f.name with
      | none => rfl
      | some y =>
        cases stationCol f.df.columns with
        | none => rfl
        | some sc => simp [h]
  · intro y hy r hr
    obtain ⟨y', hy', sc, hsc, row, hrow, hrr⟩ := mem_processFile hr
    have hyy : y' = y := Option.some.inj (hy'.symm.trans hy)
    obtain ⟨m, hm, q, hq, rfl⟩ := mem_rowRecords hrr
    exact hyy

/-- C10 witness: a file without a station-name column contributes nothing,
and a processed file's records carry the year parsed from its name. -/
theorem c10_file_gating_witness :
    processFile
        { name := "stations_1990.csv".data,
          df := { columns := ["January"], rows := [exRow1] } } = []
    ∧ exRecJan.Year = 1990 :=
  ⟨(c10_file_gating _).1 (Or.inr (Or.inl (by decide))),
   (c10_file_gating exFile1).2 1990 (by rfl) exRecJan (by decide)⟩

/-- C10 counterexample: for `exFileC` the claim's year token — the last
underscore-separated token with the `.csv` SUFFIX removed — is not
parseable as an integer, yet the file contributes a record, because the
code removes every occurrence of `.csv`, not just the suffix. -/
theorem c10_counterexample :
    pyToInt (stripCsvSuffix ((pySplit '_' exFileC.name).getLastD [])) = none
    ∧ processFile exFileC ≠ [] := by
  decide

/-- Folding `max` only grows the accumulator. -/
theorem le_foldl_max (xs : List ℚ) (a : ℚ) : a ≤ xs.foldl max a := by
  induction xs generalizing a with
  | nil => exact le_refl a
  | cons x xs ih => exact le_trans (le_max_left a x) (ih (max a x))

/-- Every element is bounded by the `max` fold. -/
theorem le_foldl_max_of_mem {xs : List ℚ} {x : ℚ} (hx : x ∈ xs) :
    ∀ a, x ≤ xs.foldl max a := by
  induction xs with
  | nil => exact absurd hx (List.not_mem_nil x)
  | cons y ys ih =>
    intro a
    rcases List.mem_cons.mp hx with h | h
    · subst h
      exact le_trans (le_max_right a x) (le_foldl_max ys (max a x))
    · exact ih h (max a y)

/-- The `max` fold is the accumulator or an element. -/
theorem foldl_max_mem (xs : List ℚ) :
    ∀ a, xs.foldl max a = a ∨ xs.foldl max a ∈ xs := by
  induction xs with
  | nil => exact fun a => Or.inl rfl
  | cons y ys ih =>
    intro a
    rw [List.foldl_cons]
    rcases ih (max a y) with h | h
    · rcases max_choice a y with hm | hm
      · exact Or.inl (h.trans hm)
      · refine Or.inr ?_
        rw [h, hm]
        exact List.mem_cons_self y ys
    · exact Or.inr (List.mem_cons_of_mem y h)

/-- Folding `min` only shrinks the accumulator. -/
theorem foldl_min_le (xs : List ℚ) (a : ℚ) : xs.foldl min a ≤ a := by
  induction xs generalizing a with
  | nil => exact le_refl a
  | cons x xs ih => exact le_trans (ih (min a x)) (min_le_left a x)

/-- Every element bounds the `min` fold. -/
theorem foldl_min_le_of_mem {xs : List ℚ} {x : ℚ} (hx : x ∈ xs) :
    ∀ a, xs.foldl min a ≤ x := by
  induction xs with
  | nil => exact absurd hx (List.not_mem_nil x)
  | cons y ys ih =>
    intro a
    rcases List.mem_cons.mp hx with h | h
    · subst h
      exact le_trans (foldl_min_le ys (min a x)) (min_le_right a x)
    · exact ih h (min a y)

/-- The `min` fold is the accumulator or an element. -/
theorem foldl_min_mem (xs : List ℚ) :
    ∀ a, xs.foldl min a = a ∨ xs.foldl min a ∈ xs := by
  induction xs with
  | nil => exact fun a => Or.inl rfl
  | cons y ys ih =>
    intro a
    rw [List.foldl_cons]
    rcases ih (min a y) with h | h
    · rcases min_choice a y with hm | hm
      · exact Or.inl (h.trans hm)
      · refine Or.inr ?_
        rw [h, hm]
        exact List.mem_cons_self y ys
    · exact Or.inr (List.mem_cons_of_mem y h)

/-- `listMax` of a non-empty list is one of its elements. -/
theorem listMax_mem {xs : List ℚ} (h : xs ≠ []) : listMax xs ∈ xs := by
  cases xs with
  | nil => exact absurd rfl h
  | cons x xs =>
    rcases foldl_max_mem xs x with h' | h'
    · show xs.foldl max x ∈ x :: xs
      rw [h']
      exact List.mem_cons_self x xs
    · exact List.mem_cons_of_mem x h'

/-- Every element is at most `listMax`. -/
theorem le_listMax {xs : List ℚ} {x : ℚ} (hx : x ∈ xs) : x ≤ listMax xs := by
  cases xs with
  | nil => exact absurd hx (List.not_mem_nil x)
  | cons y ys =>
    rcases List.mem_cons.mp hx with h | h
    · exact h ▸ le_foldl_max ys y
    · exact le_foldl_max_of_mem h y

/-- `listMin` of a non-empty list is one of its elements. -/
theorem listMin_mem {xs : List ℚ} (h : xs ≠ []) : listMin xs ∈ xs := by
  cases xs with
  | nil => exact absurd rfl h
  | cons x xs =>
    rcases foldl_min_mem xs x with h' | h'
    · show xs.foldl min x ∈ x :: xs
      rw [h']
      exact List.mem_cons_self x xs
    · exact List.mem_cons_of_mem x h'

/-- Every element is at least `listMin`. -/
theorem listMin_le {xs : List ℚ} {x : ℚ} (hx : x ∈ xs) : listMin xs ≤ x := by
  cases xs with
  | nil => exact absurd hx (List.not_mem_nil x)
  | cons y ys =>
    rcases List.mem_cons.mp hx with h | h
    · exact h ▸ foldl_min_le ys y
    · exact foldl_min_le_of_mem h y

/-- Filtering a list for the elements attaining `listMax` of an image
keeps exactly the members whose image dominates every member's image. -/
theorem mem_filter_attains_max {α : Type} (keys : List α) (g : α → ℚ)
    (x : α) (hne : keys ≠ []) :
    x ∈ keys.filter (fun a => g a = listMax (keys.map g)) ↔
      x ∈ keys ∧ ∀ y ∈ keys, g y ≤ g x := by
  rw [List.mem_filter, decide_eq_true_eq]
  constructor
  · rintro ⟨hx, heq⟩
    exact ⟨hx, fun y hy => heq ▸ le_listMax (List.mem_map_of_mem g hy)⟩
  · rintro ⟨hx, hub⟩
    refine ⟨hx, le_antisymm (le_listMax (List.mem_map_of_mem g hx)) ?_⟩
    have hne' : keys.map g ≠ [] := fun hnil =>
      hne (List.map_eq_nil_iff.mp hnil)
    obtain ⟨y0, hy0, hmax⟩ := List.mem_map.mp (listMax_mem hne')
    rw [← hmax]
    exact hub y0 hy0

/-- Filtering a list for the elements attaining `listMin` of an image
keeps exactly the members whose image is below every member's image. -/
theorem mem_filter_attains_min {α : Type} (keys : List α) (g : α → ℚ)
    (x : α) (hne : keys ≠ []) :
    x ∈ keys.filter (fun a => g a = listMin (keys.map g)) ↔
      x ∈ keys ∧ ∀ y ∈ keys, g x ≤ g y := by
  rw [List.mem_filter, decide_eq_true_eq]
  constructor
  · rintro ⟨hx, heq⟩
    exact ⟨hx, fun y hy => heq ▸ listMin_le (List.mem_map_of_mem g hy)⟩
  · rintro ⟨hx, hlb⟩
    refine ⟨hx, le_antisymm ?_ (listMin_le (List.mem_map_of_mem g hx))⟩
    have hne' : keys.map g ≠ [] := fun hnil =>
      hne (List.map_eq_nil_iff.mp hnil)
    obtain ⟨y0, hy0, hmin⟩ := List.mem_map.mp (listMin_mem hne')
    rw [← hmin]
    exact hlb y0 hy0

/-- C3: `find_largest_temperature_range` returns exactly the stations in
the data whose temperature range (max − min over all their records, all
years pooled) is maximal; every tied station is included. -/
theorem c3_largest_range (recs : List Record) (st : Cell) :
    st ∈ find_largest_temperature_range recs ↔
      st ∈ stationKeys recs ∧
        ∀ st' ∈ stationKeys recs,
          stationRange recs st' ≤ stationRange recs st := by
  by_cases hne : stationKeys recs = []
  · simp only [find_largest_temperature_range, hne]
    simp [hne]
  · simp only [find_largest_temperature_range]
    exact mem_filter_attains_max (stationKeys recs) (stationRange recs) st hne

/-- C3 witness: station `A` (range 10) is returned as the largest-range
station of the sample data. -/
theorem c3_largest_range_witness :
    Cell.text "A" ∈ find_largest_temperature_range exRecs3 := by
  have hA : stationTemps exRecs3 (Cell.text "A") = [0, 10] := by decide
  have hB : stationTemps exRecs3 (Cell.text "B") = [5] := by decide
  have hkeys : stationKeys exRecs3 = [Cell.text "A", Cell.text "B"] := by
    decide
  refine (c3_largest_range exRecs3 (Cell.text "A")).mpr ⟨by decide, ?_⟩
  intro st' hst'
  rw [hkeys] at hst'
  rcases List.mem_cons.mp hst' with h | h
  · subst h
    exact le_refl _
  · rcases List.mem_cons.mp h with h2 | h2
    · subst h2
      norm_num [stationRange, hA, hB, listMax, listMin, List.foldl,
        max_def, min_def]
    · exact absurd h2 (List.not_mem_nil st')

/-- Every season attached to a loaded record is one of the four seasons. -/
theorem southernSeason_mem :
    ∀ m ∈ monthColumns, southernSeason m ∈ season_order := by
  decide

/-- C2: `calculate_seasonal_averages` returns exactly the four seasons in
the order Summer, Autumn, Winter, Spring, and for every season present in
the loaded data its entry is the arithmetic mean of the temperatures of
ALL records of that season — pooled over stations and years, not a mean of
per-station means. -/
theorem c2_seasonal_averages (files : List CSVFile) (recs : List Record)
    (s : String) (h : load_all_data files = Except.ok recs)
    (hs : ∃ r ∈ recs, r.Season = s) :
    (calculate_seasonal_averages recs).map Prod.fst =
      ["Summer", "Autumn", "Winter", "Spring"]
    ∧ (calculate_seasonal_averages recs).lookup s =
        some (some ((seasonTemps recs s).sum /
          ((seasonTemps recs s).length : ℚ))) := by
  constructor
  · simp [calculate_seasonal_averages, season_order]
  · obtain ⟨r, hr, hrs⟩ := hs
    have hinv := flatten_season_invariant files r (load_ok_eq files recs h ▸ hr)
    have hmem : s ∈ season_order := by
      rw [← hrs, hinv.2]
      exact southernSeason_mem r.Month hinv.1
    have hne : seasonTemps recs s ≠ [] := by
      intro hnil
      have hmem' : r.Temperature ∈ seasonTemps recs s := by
        unfold seasonTemps
        exact List.mem_map_of_mem _ (List.mem_filter.mpr
          ⟨hr, decide_eq_true hrs⟩)
      rw [hnil] at hmem'
      exact List.not_mem_nil _ hmem'
    have hlookup : (calculate_seasonal_averages recs).lookup s =
        some (meanQ (seasonTemps recs s)) := by
      fin_cases hmem <;> rfl
    rw [hlookup]
    unfold meanQ
    rw [if_neg (fun hh => hne (List.isEmpty_iff.mp hh))]

/-- C2 witness: the theorem applied to the loaded sample file and the
season Summer. -/
theorem c2_seasonal_averages_witness :
    (calculate_seasonal_averages exRecs1).map Prod.fst =
      ["Summer", "Autumn", "Winter", "Spring"]
    ∧ (calculate_seasonal_averages exRecs1).lookup "Summer" =
        some (some ((seasonTemps exRecs1 "Summer").sum /
          ((seasonTemps exRecs1 "Summer").length : ℚ))) :=
  c2_seasonal_averages [exFile1] exRecs1 "Summer" (by rfl) (by decide)

/-- The sample variance of a list with at least two entries is
non-negative. -/
theorem sampleVar_nonneg (xs : List ℚ) (h2 : 2 ≤ xs.length) :
    0 ≤ sampleVar xs := by
  unfold sampleVar
  apply div_nonneg
  · apply List.sum_nonneg
    intro x hx
    rw [List.mem_map] at hx
    obtain ⟨y, hy, rfl⟩ := hx
    exact sq_nonneg _
  · have hcast : (2:ℚ) ≤ (xs.length : ℚ) := by exact_mod_cast h2
    linarith

/-- Unfolding of membership in the `dropna`-surviving keys. -/
theorem stableKeys_spec {recs : List Record} {st : Cell}
    (h : st ∈ stableKeys recs) :
    st ∈ stationKeys recs ∧ 2 ≤ (stationTemps recs st).length := by
  unfold stableKeys at h
  rw [List.mem_filter, decide_eq_true_eq] at h
  exact h

/-- C4: `analyze_temperature_stability` returns `None, None` exactly when
no station survives the `dropna` (i.e. none has at least two records);
otherwise it returns as most stable exactly the surviving stations whose
sample standard deviation `√(sample variance)` is minimal among all
surviving stations, and as most variable exactly those attaining the
maximal one — ties included. -/
theorem c4_stability (recs : List Record) :
    (analyze_temperature_stability recs = none ↔ stableKeys recs = [])
    ∧ ∀ stab vari,
        analyze_temperature_stability recs = some (stab, vari) →
          (∀ st, st ∈ stab ↔ st ∈ stableKeys recs ∧
              ∀ st' ∈ stableKeys recs,
                Real.sqrt ((sampleVar (stationTemps recs st) : ℚ) : ℝ) ≤
                  Real.sqrt ((sampleVar (stationTemps recs st') : ℚ) : ℝ))
          ∧ (∀ st, st ∈ vari ↔ st ∈ stableKeys recs ∧
              ∀ st' ∈ stableKeys recs,
                Real.sqrt ((sampleVar (stationTemps recs st') : ℚ) : ℝ) ≤
                  Real.sqrt ((sampleVar (stationTemps recs st) : ℚ) : ℝ)) := by
  constructor
  · by_cases hk : (stableKeys recs).isEmpty
    · have hkeq := List.isEmpty_iff.mp hk
      simp [analyze_temperature_stability, hk, hkeq]
    · have hkne : stableKeys recs ≠ [] := by
        intro hh
        rw [hh] at hk
        exact hk rfl
      simp [analyze_temperature_stability, hk, hkne]
  · intro stab vari hsome
    by_cases hk : (stableKeys recs).isEmpty
    · exfalso
      simp only [analyze_temperature_stability, hk, if_true] at hsome
      exact Option.noConfusion hsome
    · have hkne : stableKeys recs ≠ [] := by
        intro hh
        rw [hh] at hk
        exact hk rfl
      simp only [analyze_temperature_stability, hk, Bool.false_eq_true,
        if_false, Option.some_inj] at hsome
      rw [Prod.mk.injEq] at hsome
      obtain ⟨hstab, hvari⟩ := hsome
      subst hstab
      subst hvari
      constructor
      · intro st
        rw [mem_filter_attains_min (stableKeys recs)
          (fun st => sampleVar (stationTemps recs st)) st hkne]
        constructor
        · rintro ⟨hst, hmin⟩
          refine ⟨hst, ?_⟩
          intro st' hst'
          exact Real.sqrt_le_sqrt (by exact_mod_cast hmin st' hst')
        · rintro ⟨hst, hmin⟩
          refine ⟨hst, ?_⟩
          intro st' hst'
          have hnn : (0:ℝ) ≤ ((sampleVar (stationTemps recs st') : ℚ) : ℝ) := by
            exact_mod_cast sampleVar_nonneg _ (stableKeys_spec hst').2
          have hle := (Real.sqrt_le_sqrt_iff hnn).mp (hmin st' hst')
          exact_mod_cast hle
      · intro st
        rw [mem_filter_attains_max (stableKeys recs)
          (fun st => sampleVar (stationTemps recs st)) st hkne]
        constructor
        · rintro ⟨hst, hmax⟩
          refine ⟨hst, ?_⟩
          intro st' hst'
          exact Real.sqrt_le_sqrt (by exact_mod_cast hmax st' hst')
        · rintro ⟨hst, hmax⟩
          refine ⟨hst, ?_⟩
          intro st' hst'
          have hnn : (0:ℝ) ≤ ((sampleVar (stationTemps recs st) : ℚ) : ℝ) := by
            exact_mod_cast sampleVar_nonneg _ (stableKeys_spec hst).2
          have hle := (Real.sqrt_le_sqrt_iff hnn).mp (hmax st' hst')
          exact_mod_cast hle

/-- C4 witness: on the sample data the function returns `A` as most stable
and `B` as most variable, and `B`'s sample standard deviation dominates
all surviving stations'. -/
theorem c4_stability_witness :
    analyze_temperature_stability exRecs4 =
      some ([Cell.text "A"], [Cell.text "B"])
    ∧ (Cell.text "B" ∈ stableKeys exRecs4
        ∧ ∀ st' ∈ stableKeys exRecs4,
            Real.sqrt ((sampleVar (stationTemps exRecs4 st') : ℚ) : ℝ) ≤
              Real.sqrt
                ((sampleVar (stationTemps exRecs4 (Cell.text "B")) : ℚ) : ℝ)) := by
  have hA : stationTemps exRecs4 (Cell.text "A") = [10, 10] := by decide
  have hB : stationTemps exRecs4 (Cell.text "B") = [0, 10] := by decide
  have hkeys : stableKeys exRecs4 = [Cell.text "A", Cell.text "B"] := by
    decide
  have hvA : sampleVar (stationTemps exRecs4 (Cell.text "A")) = 0 := by
    rw [hA]
    norm_num [sampleVar]
  have hvB : sampleVar (stationTemps exRecs4 (Cell.text "B")) = 50 := by
    rw [hB]
    norm_num [sampleVar]
  have hEval : analyze_temperature_stability exRecs4 =
      some ([Cell.text "A"], [Cell.text "B"]) := by
    simp only [analyze_temperature_stability, hkeys]
    norm_num [hvA, hvB, listMin, listMax, List.foldl, min_def, max_def,
      List.filter]
  refine ⟨hEval, ?_⟩
  exact (((c4_stability exRecs4).2 (([Cell.text "A"] : List Cell))
    (([Cell.text "B"] : List Cell)) hEval).2 (Cell.text "B")).mp
    (by decide)
